import Mathlib

/-!
Verification of the ilmenite glyph rasterization core.

This file gives a shallow embedding, in Lean, of the parts of the
ilmenite source that the specification talks about:

* `src/bitmap.rs` — bitmap extent and bearing computation
  (`expand_round`, `ImtGlyphBitmap::new`), the CPU rasterizer's
  per-pixel finishing stage, and the ray–segment intersection test;
* `src/shaders/glyph_cs.rs` — the GPU compute shader's per-pixel
  stage (`ray_intersects`, `gain`, `get_value`, `main`);
* `src/raster.rs` — the raster options, the constructor handling of
  `cpu_rasterization`, the per-key cache protocol and the batch loop
  of `ImtRaster::raster_shaped_glyphs`.

`f32` values are embedded as exact rationals (`ℚ`) where the code only
performs ring operations, rounding and comparisons, and as reals (`ℝ`)
where the code applies transcendental functions (`pow`, `sqrt`).
`f32` division is partial: dividing by zero produces NaN/inf, which we
embed as `Option` with `none` for a non-finite result.
-/

namespace Ilmenite

/-! ### Rounding primitives (f32 semantics over ℚ) -/

/-- Rust `f32::trunc`: round toward zero. -/
def ftrunc (q : ℚ) : ℚ :=
  if 0 ≤ q then (⌊q⌋ : ℚ) else (⌈q⌉ : ℚ)

/-- Rust `f32::ceil`. -/
def fceil (q : ℚ) : ℚ := (⌈q⌉ : ℚ)

/-- Rust `f32::floor`. -/
def ffloor (q : ℚ) : ℚ := (⌊q⌋ : ℚ)

/-- Rust cast `as u32` applied to an `f32`: truncate toward zero and
saturate into `[0, u32::MAX]`. -/
def f32AsU32 (q : ℚ) : ℕ :=
  min (ftrunc q).num.toNat (2 ^ 32 - 1)

/-! ### `expand_round` (src/bitmap.rs lines 48–62) -/

/-- `expand_round` from `src/bitmap.rs`.  `direction = true` is the
max direction, `false` the min direction.  `is_sign_positive` on a
rational is `0 ≤ q` (the `-0.0` case of `f32` produces the same output
value on both branches, so this is faithful). -/
def expand_round (val : ℚ) (direction : Bool) : ℚ :=
  if direction then
    if 0 ≤ val then fceil val + 1 else ftrunc val + 1
  else
    if 0 ≤ val then ftrunc val - 1 else fceil val - 1

/-! ### Font properties and parsed glyphs (src/parse.rs) -/

/-- `ImtFontProps` from `src/parse.rs`. -/
structure ImtFontProps where
  scaler : ℚ
  ascender : ℚ
  descender : ℚ
  line_gap : ℚ
  deriving DecidableEq

/-- A point of the glyph outline (`ImtPoint` in `src/primative.rs`). -/
structure ImtPoint where
  x : ℚ
  y : ℚ
  deriving DecidableEq

/-- `ImtGeometry` from `src/primative.rs`: a straight line or a
quadratic Bézier with one off-curve control point. -/
inductive ImtGeometry where
  | line (p0 p1 : ImtPoint)
  | curve (p0 p1 p2 : ImtPoint)
  deriving DecidableEq

/-- The fields of `ImtParsedGlyph` (src/parse.rs) that the bitmap
pipeline reads: the glyph index, the bounding box and the outline
geometry. -/
structure ImtParsedGlyph where
  glyph_index : ℕ
  min_x : ℚ
  min_y : ℚ
  max_x : ℚ
  max_y : ℚ
  geometry : List ImtGeometry
  deriving DecidableEq

/-! ### Raster options (src/raster.rs lines 24–100) -/

/-- `ImtFillQuality` from `src/raster.rs`. -/
inductive ImtFillQuality where
  | fast
  | normal
  | best
  deriving DecidableEq

/-- `ImtFillQuality::ray_count`. -/
def ImtFillQuality.rayCount : ImtFillQuality → ℕ
  | .fast => 3
  | .normal => 5
  | .best => 13

/-- `ImtSampleQuality` from `src/raster.rs`. -/
inductive ImtSampleQuality where
  | fastest
  | faster
  | fast
  | normal
  | best
  deriving DecidableEq

/-- `ImtSampleQuality::sample_count`. -/
def ImtSampleQuality.sampleCount : ImtSampleQuality → ℕ
  | .fastest => 1
  | .faster => 4
  | .fast => 9
  | .normal => 16
  | .best => 25

/-- `ImtRasterOpts` from `src/raster.rs`.  The Vulkan image format is
embedded as an opaque numeric tag. -/
structure ImtRasterOpts where
  fill_quality : ImtFillQuality
  sample_quality : ImtSampleQuality
  align_whole_pixels : Bool
  cpu_rasterization : Bool
  raster_to_image : Bool
  raster_image_format : ℕ
  deriving DecidableEq

/-- `ImtRasterOpts::default()`. -/
def ImtRasterOpts.default : ImtRasterOpts where
  fill_quality := .normal
  sample_quality := .normal
  align_whole_pixels := true
  cpu_rasterization := false
  raster_to_image := true
  raster_image_format := 0

/-! ### Bitmap metrics (`ImtGlyphBitmap::new`, src/bitmap.rs 64–108) -/

/-- `ImtBitmapMetrics` from `src/bitmap.rs`. -/
structure ImtBitmapMetrics where
  width : ℕ
  height : ℕ
  bearing_x : ℚ
  bearing_y : ℚ
  deriving DecidableEq

/-- The metrics part of `ImtGlyphBitmap` together with the alignment
offsets and the scaler, exactly the state set up by
`ImtGlyphBitmap::new`. -/
structure BitmapSetup where
  metrics : ImtBitmapMetrics
  offset_x : ℚ
  offset_y : ℚ
  scaler : ℚ
  deriving DecidableEq

/-- `ImtGlyphBitmap::new` from `src/bitmap.rs`: computes scaler,
bearings (with optional whole-pixel alignment), offsets, and the
bitmap extent via `expand_round`.  The `(… ) as u32 + 1` of the source
is embedded with the saturating `f32AsU32` cast followed by the
wrapping `u32` addition. -/
def ImtGlyphBitmap.new (props : ImtFontProps) (parsed : ImtParsedGlyph)
    (text_height : ℚ) (raster_opts : ImtRasterOpts) : BitmapSetup :=
  let scaler := props.scaler * text_height
  let bearing_x0 := parsed.min_x * scaler
  let bearing_y0 := (props.ascender - parsed.max_y) * scaler
  let bearing_x := if raster_opts.align_whole_pixels then fceil bearing_x0 else bearing_x0
  let bearing_y := if raster_opts.align_whole_pixels then fceil bearing_y0 else bearing_y0
  let offset_x := if raster_opts.align_whole_pixels then (bearing_x0 - fceil bearing_x0) + 1 else 0
  let offset_y := if raster_opts.align_whole_pixels then -(bearing_y0 - fceil bearing_y0) - 1 else 0
  let height := (f32AsU32 (expand_round (parsed.max_y * scaler) true
      - expand_round (parsed.min_y * scaler) false) + 1) % 2 ^ 32
  let width := (f32AsU32 (expand_round (parsed.max_x * scaler) true
      - expand_round (parsed.min_x * scaler) false) + 1) % 2 ^ 32
  { metrics := { width, height, bearing_x, bearing_y }
    offset_x, offset_y, scaler }

/-! ### Ray–segment intersection (src/bitmap.rs 127–140 and
src/shaders/glyph_cs.rs 32–45) -/

/-- The `ray_intersects` closure of `ImtGlyphBitmap::raster_cpu`.
In `f32`, a zero determinant makes `t` and `u` NaN or infinite, so the
interval tests fail and no intersection is reported; the embedding
makes that case an explicit `none`.  Note the source computes the
returned point as `(l1p1 + r) * t` componentwise. -/
def ray_intersects_cpu (l1p1 l1p2 l2p1 l2p2 : ℚ × ℚ) : Option (ℚ × ℚ) :=
  let r := (l1p2.1 - l1p1.1, l1p2.2 - l1p1.2)
  let s := (l2p2.1 - l2p1.1, l2p2.2 - l2p1.2)
  let det := r.1 * s.2 - r.2 * s.1
  if det = 0 then none
  else
    let u := ((l2p1.1 - l1p1.1) * r.2 - (l2p1.2 - l1p1.2) * r.1) / det
    let t := ((l2p1.1 - l1p1.1) * s.2 - (l2p1.2 - l1p1.2) * s.1) / det
    if 0 ≤ t ∧ t ≤ 1 ∧ 0 ≤ u ∧ u ≤ 1 then
      some ((l1p1.1 + r.1) * t, (l1p1.2 + r.2) * t)
    else none

/-- The `ray_intersects` function of the compute shader
(`src/shaders/glyph_cs.rs`), which returns `point = l1p1 + r * t`. -/
def ray_intersects_gpu (l1p1 l1p2 l2p1 l2p2 : ℚ × ℚ) : Option (ℚ × ℚ) :=
  let r := (l1p2.1 - l1p1.1, l1p2.2 - l1p1.2)
  let s := (l2p2.1 - l2p1.1, l2p2.2 - l2p1.2)
  let det := r.1 * s.2 - r.2 * s.1
  if det = 0 then none
  else
    let u := ((l2p1.1 - l1p1.1) * r.2 - (l2p1.2 - l1p1.2) * r.1) / det
    let t := ((l2p1.1 - l1p1.1) * s.2 - (l2p1.2 - l1p1.2) * s.1) / det
    if 0 ≤ t ∧ t ≤ 1 ∧ 0 ≤ u ∧ u ≤ 1 then
      some (l1p1.1 + r.1 * t, l1p1.2 + r.2 * t)
    else none

/-! ### Per-pixel output stages (src/bitmap.rs 237–248 and
src/shaders/glyph_cs.rs 105–152)

Both rasterizers derive, for a subpixel x-offset, the same mean fill
fraction `fill_amt_sum / sample_count` from the sample grid and ray
votes; the coverage oracle `v` below abstracts that shared quantity as
a function of the subpixel offset.  The two implementations then
diverge in how they turn coverages into a stored RGBA pixel. -/

/-- `f32` division as used in `raster_cpu`: dividing by zero yields a
non-finite value (NaN or ±inf), embedded as `none`. -/
noncomputable def fdivR (x y : ℝ) : Option ℝ :=
  if y = 0 then none else some (x / y)

/-- The CPU rasterizer's per-pixel finish (src/bitmap.rs 240–247):
three subpixel coverages at offsets `1/6, 3/6, 5/6`, alpha their mean,
and R, G, B divided by alpha with no guard for `alpha = 0`. -/
noncomputable def cpuPixelFinish (v : ℚ → ℝ) :
    Option ℝ × Option ℝ × Option ℝ × ℝ :=
  let r := v (1/6)
  let g := v (3/6)
  let b := v (5/6)
  let a := (r + g + b) / 3
  (fdivR r a, fdivR g a, fdivR b a, a)

/-- GLSL `sign`. -/
noncomputable def glslSign (x : ℝ) : ℝ :=
  if 0 < x then 1 else if x < 0 then -1 else 0

/-- GLSL `clamp`. -/
noncomputable def glslClamp (x lo hi : ℝ) : ℝ := min (max x lo) hi

/-- The `gain` function of the compute shader
(src/shaders/glyph_cs.rs 105–110). -/
noncomputable def gain (x k : ℝ) : ℝ :=
  let x' := glslClamp x 0 1
  let s := glslSign (x' - 0.5)
  let o := (1 + s) / 2
  o - 0.5 * s * (2 * (o - s * x')) ^ k

/-- The shader's `get_value` (src/shaders/glyph_cs.rs 112–129) on a
coverage oracle: a `0.02` cutoff followed by `gain(value + 0.1, 2.5)`.
The CPU path has no such step. -/
noncomputable def gpuGetValue (v : ℚ → ℝ) (offset : ℚ) : ℝ :=
  let value := v offset
  if value < 0.02 then 0 else gain (value + 0.1) 2.5

/-- The shader's `main` per-pixel finish
(src/shaders/glyph_cs.rs 131–152): five subpixel taps at offsets
`−1/6, 1/6, 3/6, 5/6, 7/6`, a box filter of adjacent taps into the
R, G, B channels, and `alpha = max(R, G, B)` with no division. -/
noncomputable def gpuPixelMain (v : ℚ → ℝ) : ℝ × ℝ × ℝ × ℝ :=
  let left := gpuGetValue v (-1/6)
  let r := gpuGetValue v (1/6)
  let g := gpuGetValue v (3/6)
  let b := gpuGetValue v (5/6)
  let right := gpuGetValue v (7/6)
  let cr := left * (1/3) + r * (1/3) + g * (1/3)
  let cg := r * (1/3) + g * (1/3) + b * (1/3)
  let cb := g * (1/3) + b * (1/3) + right * (1/3)
  (cr, cg, cb, max cr (max cg cb))

/-- Quantization of a channel to 8 bits as the GPU image store does
(`R8G8B8A8_UNORM`): clamp to `[0, 1]`, scale by 255, round to
nearest. -/
noncomputable def quant8 (x : ℝ) : ℤ := ⌊glslClamp x 0 1 * 255 + 1/2⌋

/-- The coverage oracle used as the concrete counterexample input:
full coverage at the middle subpixel (offset `3/6`), zero
elsewhere. -/
def covMid (offset : ℚ) : ℝ := if offset = 3/6 then 1 else 0

/-! ### Claim C10 — constructor-forced rasterization path -/

/-- The two rasterization paths of `raster_shaped_glyphs`. -/
inductive RasterPath where
  | cpu
  | gpu
  deriving DecidableEq

/-- The option rewrite done by `ImtRaster::new_cpu`
(src/raster.rs 249–250): `opts.cpu_rasterization = true`. -/
def ImtRaster.newCpuOpts (opts : ImtRasterOpts) : ImtRasterOpts :=
  { opts with cpu_rasterization := true }

/-- The option rewrite done by `ImtRaster::new_gpu`
(src/raster.rs 140–146): `opts.cpu_rasterization = false`. -/
def ImtRaster.newGpuOpts (opts : ImtRasterOpts) : ImtRasterOpts :=
  { opts with cpu_rasterization := false }

/-- The dispatch of `raster_shaped_glyphs` (src/raster.rs 392–396):
`self.opts.cpu_rasterization` selects `raster_cpu` or `raster_gpu`. -/
def rasterDispatch (opts : ImtRasterOpts) : RasterPath :=
  if opts.cpu_rasterization then .cpu else .gpu

/-! ### Claim C5 — batch loop of `raster_shaped_glyphs`
(src/raster.rs 291–448), single-caller semantics

Sequentially (one caller), the `Incomplete` state a thread inserts for
a key is replaced by that same thread before the next glyph is
examined, so the cache values visible at each lookup are `Completed`
or `Errored`.  Absent and `Errored` entries both lead to a (re)build;
a build failure returns the error immediately. -/

/-- The observable cache entry states of `RasterCacheState` within a
single-threaded run. -/
inductive CacheVal (B E : Type) where
  | completed (bitmap : B)
  | errored (e : E)
  deriving DecidableEq

/-- Cache lookup: the `BTreeMap` as an association list where the
most recent insert for a key shadows older ones. -/
def cacheFind {K V : Type} [DecidableEq K] : List (K × V) → K → Option V
  | [], _ => none
  | (k, v) :: rest, key => if key = k then some v else cacheFind rest key

/-- Cache insert (`BTreeMap::insert` replaces the old value). -/
def cacheInsert {K V : Type} (c : List (K × V)) (k : K) (v : V) : List (K × V) :=
  (k, v) :: c

/-- One iteration of the `'glyphs` loop for a single glyph: a
`Completed` hit is cloned from the cache; otherwise (absent or
`Errored`) the glyph is rasterized, a success is published and paired
with the glyph, an error is returned (the `Errored` entry the code
stores is invisible to this call's return value). -/
def rasterStep {G K B E : Type} [DecidableEq K] (keyOf : G → K)
    (doRaster : G → Except E B) (cache : List (K × CacheVal B E)) (g : G) :
    Except E ((G × B) × List (K × CacheVal B E)) :=
  match cacheFind cache (keyOf g) with
  | some (.completed b) => .ok ((g, b), cache)
  | _ =>
    match doRaster g with
    | .error e => .error e
    | .ok b => .ok ((g, b), cacheInsert cache (keyOf g) (.completed b))

/-- The `'glyphs` loop of `ImtRaster::raster_shaped_glyphs`: walk the
shaped glyphs in order, pushing one output record per glyph, stopping
at the first error. -/
def raster_shaped_glyphs {G K B E : Type} [DecidableEq K] (keyOf : G → K)
    (doRaster : G → Except E B) :
    List G → List (K × CacheVal B E)
      → Except E (List (G × B) × List (K × CacheVal B E))
  | [], cache => .ok ([], cache)
  | g :: gs, cache =>
    match rasterStep keyOf doRaster cache g with
    | .error e => .error e
    | .ok (out, cache') =>
      match raster_shaped_glyphs keyOf doRaster gs cache' with
      | .error e => .error e
      | .ok (outs, cache'') => .ok (out :: outs, cache'')

/-! ### Outline building (src/bitmap.rs 415–483) -/

/-- `ImtPoint::dist` from `src/primative.rs`. -/
noncomputable def ImtPoint.dist (a b : ImtPoint) : ℝ :=
  Real.sqrt (((a.x - b.x) ^ 2 + (a.y - b.y) ^ 2 : ℚ) : ℝ)

/-- The quadratic Bézier point at parameter `t` as computed inside
`draw_curve`. -/
def quadPoint (a b c : ImtPoint) (t : ℚ) : ImtPoint :=
  ⟨(1 - t) ^ 2 * a.x + 2 * (1 - t) * t * b.x + t ^ 2 * c.x,
   (1 - t) ^ 2 * a.y + 2 * (1 - t) * t * b.y + t ^ 2 * c.y⟩

/-- The pilot pass of `draw_curve`: the chord length of the curve
subdivided at `t = s/10` for `s = 0..10`. -/
noncomputable def pilotLength (a b c : ImtPoint) : ℝ :=
  ∑ s in Finset.range 10,
    ImtPoint.dist (quadPoint a b c (s / 10)) (quadPoint a b c ((s + 1) / 10))

/-- The final chord count of `draw_curve`:
`max(3, ceil(length · scaler · 2))`, with the `as usize` cast
saturating negatives to zero. -/
noncomputable def curveSteps (a b c : ImtPoint) (scaler : ℚ) : ℕ :=
  max 3 ⌈pilotLength a b c * (scaler : ℝ) * 2⌉.toNat

/-- The chords emitted by `draw_curve` for one quadratic. -/
noncomputable def flattenCurve (a b c : ImtPoint) (scaler : ℚ) :
    List (ImtPoint × ImtPoint) :=
  let steps := curveSteps a b c scaler
  (List.range steps).map fun s =>
    (quadPoint a b c ((s : ℚ) / steps), quadPoint a b c (((s : ℚ) + 1) / steps))

/-- `ImtGlyphBitmap::create_outline`: every geometry element is
flattened into line segments in order (`draw_geometry`/`draw_line`/
`draw_curve`); `scaler` is the bitmap's `font.scaler · text_height`. -/
noncomputable def create_outline (parsed : ImtParsedGlyph) (scaler : ℚ) :
    List (ImtPoint × ImtPoint) :=
  parsed.geometry.flatMap fun geo =>
    match geo with
    | .line p0 p1 => [(p0, p1)]
    | .curve p0 p1 p2 => flattenCurve p0 p1 p2 scaler

/-- The key under which `ImtRaster` memoizes bitmaps
(src/raster.rs 117, 312): the text height and the glyph index —
nothing identifying the parser or font. -/
def rasterCacheKey (text_height : ℚ) (parsed : ImtParsedGlyph) : ℚ × ℕ :=
  (text_height, parsed.glyph_index)

/-! ### Concurrent cache protocol (src/raster.rs 301–448)

A transition system for one cache key, error-free executions.  Each
transition is one critical section of `raster_shaped_glyphs`: the
mutex is held for exactly the lookup/update it performs, never across
rasterization.  `beginBuild` is the absent-key path that inserts
`Incomplete` and starts rasterizing; `registerWaiter` pushes an
unparker and parks; `publish` is the successful completion that
replaces the entry with `Completed`; `hitCompleted` and `wake` are a
fresh lookup and a woken parker consuming the published bitmap.  A
parked thread that wakes spuriously re-parks, which is a stutter and
needs no transition.  Handles are opaque `ℕ` names for the `Arc`
allocated by the builder. -/

/-- Thread-local position in the protocol of one cache key. -/
inductive TState where
  | start
  | building
  | parked
  | done (handle : ℕ)
  deriving DecidableEq

/-- The per-key cache entry, as in `RasterCacheState` (without the
error state: error-free executions). -/
inductive CacheEntry (T : Type) where
  | incomplete (waiters : List T)
  | completed (handle : ℕ)
  deriving DecidableEq

/-- Global state: the entry for the key (absent before the first
request), each thread's position, and how many times rasterization
work has been started for the key. -/
structure CacheWorld (T : Type) where
  cache : Option (CacheEntry T)
  threads : T → TState
  builds : ℕ

/-- Cold cache: no entry, all threads about to request the key. -/
def CacheWorld.init (T : Type) : CacheWorld T :=
  ⟨none, fun _ => .start, 0⟩

/-- One mutex-protected transition of the cache protocol. -/
inductive CacheStep {T : Type} [DecidableEq T] :
    CacheWorld T → CacheWorld T → Prop where
  | beginBuild (c : CacheWorld T) (t : T) :
      c.threads t = .start → c.cache = none →
      CacheStep c ⟨some (.incomplete []),
        Function.update c.threads t .building, c.builds + 1⟩
  | hitCompleted (c : CacheWorld T) (t : T) (h : ℕ) :
      c.threads t = .start → c.cache = some (.completed h) →
      CacheStep c ⟨c.cache, Function.update c.threads t (.done h), c.builds⟩
  | registerWaiter (c : CacheWorld T) (t : T) (ws : List T) :
      c.threads t = .start → c.cache = some (.incomplete ws) →
      CacheStep c ⟨some (.incomplete (t :: ws)),
        Function.update c.threads t .parked, c.builds⟩
  | publish (c : CacheWorld T) (t : T) (h : ℕ) :
      c.threads t = .building →
      CacheStep c ⟨some (.completed h),
        Function.update c.threads t (.done h), c.builds⟩
  | wake (c : CacheWorld T) (t : T) (h : ℕ) :
      c.threads t = .parked → c.cache = some (.completed h) →
      CacheStep c ⟨c.cache, Function.update c.threads t (.done h), c.builds⟩

/-- Configurations reachable from the cold cache. -/
def cacheReachable (T : Type) [DecidableEq T] (c : CacheWorld T) : Prop :=
  Relation.ReflTransGen CacheStep (CacheWorld.init T) c

/-- The protocol invariant: a missing entry means nothing has
happened; an `Incomplete` entry means exactly one build has started,
its unique builder is still running and nobody has a bitmap yet; a
`Completed h` entry means the single build is over and every
finished thread got exactly the published handle `h`. -/
def CacheInv {T : Type} (c : CacheWorld T) : Prop :=
  (c.cache = none → c.builds = 0 ∧ ∀ t, c.threads t = .start)
  ∧ (∀ ws, c.cache = some (.incomplete ws) →
      c.builds = 1
      ∧ (∃ t, c.threads t = .building ∧ ∀ t', c.threads t' = .building → t' = t)
      ∧ (∀ t h, c.threads t ≠ .done h))
  ∧ (∀ h, c.cache = some (.completed h) →
      c.builds = 1
      ∧ (∀ t, c.threads t ≠ .building)
      ∧ (∀ t h', c.threads t = .done h' → h' = h))

/-- A five-step demonstration run with two threads: thread 0 takes
the build path, thread 1 parks and is woken by the publish of
handle 5. -/
def cacheDemo0 : CacheWorld ℕ := CacheWorld.init ℕ

def cacheDemo1 : CacheWorld ℕ :=
  ⟨some (.incomplete []), Function.update cacheDemo0.threads 0 .building,
    cacheDemo0.builds + 1⟩

def cacheDemo2 : CacheWorld ℕ :=
  ⟨some (.incomplete [1]), Function.update cacheDemo1.threads 1 .parked,
    cacheDemo1.builds⟩

def cacheDemo3 : CacheWorld ℕ :=
  ⟨some (.completed 5), Function.update cacheDemo2.threads 0 (.done 5),
    cacheDemo2.builds⟩

def cacheDemo4 : CacheWorld ℕ :=
  ⟨cacheDemo3.cache, Function.update cacheDemo3.threads 1 (.done 5),
    cacheDemo3.builds⟩

/-! ### Helper lemmas about the extent computation -/

lemma ftrunc_of_nonneg {q : ℚ} (h : 0 ≤ q) : ftrunc q = (⌊q⌋ : ℚ) := by
  simp [ftrunc, h]

lemma fceil_eq {q : ℚ} {n : ℤ} (h1 : (n : ℚ) - 1 < q) (h2 : q ≤ (n : ℚ)) :
    fceil q = (n : ℚ) := by
  unfold fceil
  rw [Int.ceil_eq_iff.mpr ⟨h1, h2⟩]

lemma ffloor_eq {q : ℚ} {n : ℤ} (h1 : (n : ℚ) ≤ q) (h2 : q < (n : ℚ) + 1) :
    ffloor q = (n : ℚ) := by
  unfold ffloor
  rw [Int.floor_eq_iff.mpr ⟨h1, h2⟩]

lemma ftrunc_eq_nonneg {q : ℚ} {n : ℤ} (h0 : 0 ≤ q) (h1 : (n : ℚ) ≤ q)
    (h2 : q < (n : ℚ) + 1) : ftrunc q = (n : ℚ) := by
  unfold ftrunc
  rw [if_pos h0, Int.floor_eq_iff.mpr ⟨h1, h2⟩]

lemma ftrunc_eq_neg {q : ℚ} {n : ℤ} (h0 : ¬ 0 ≤ q) (h1 : (n : ℚ) - 1 < q)
    (h2 : q ≤ (n : ℚ)) : ftrunc q = (n : ℚ) := by
  unfold ftrunc
  rw [if_neg h0, Int.ceil_eq_iff.mpr ⟨h1, h2⟩]

lemma f32AsU32_eq {q : ℚ} {n : ℤ} (h : ftrunc q = (n : ℚ)) :
    f32AsU32 q = min n.toNat (2 ^ 32 - 1) := by
  unfold f32AsU32
  rw [h, Rat.num_intCast]

lemma expand_round_true (v : ℚ) : expand_round v true = (⌈v⌉ : ℚ) + 1 := by
  by_cases h : 0 ≤ v
  · simp [expand_round, fceil, h]
  · simp [expand_round, ftrunc, fceil, h]

lemma expand_round_false_nonneg {v : ℚ} (h : 0 ≤ v) :
    expand_round v false = (⌊v⌋ : ℚ) - 1 := by
  simp [expand_round, ftrunc, h]

lemma expand_round_false_neg {v : ℚ} (h : ¬ 0 ≤ v) :
    expand_round v false = (⌈v⌉ : ℚ) - 1 := by
  simp [expand_round, fceil, h]

/-- The extent computation of `ImtGlyphBitmap::new` in closed form for
a nonnegative scaled range `[lo, hi]` that stays well below the `u32`
range. -/
lemma widthFormula (lo hi : ℚ) (h0 : 0 ≤ lo) (hle : lo ≤ hi)
    (hbound : ⌈hi⌉ - ⌊lo⌋ + 3 < 2 ^ 32) :
    (f32AsU32 (expand_round hi true - expand_round lo false) + 1) % 2 ^ 32
      = (⌈hi⌉ - ⌊lo⌋ + 3).toNat := by
  have h0' : 0 ≤ hi := h0.trans hle
  have hba : ⌊lo⌋ ≤ ⌈hi⌉ := le_trans (Int.floor_le_ceil lo) (Int.ceil_le_ceil hle)
  have hdiff : expand_round hi true - expand_round lo false
      = ((⌈hi⌉ - ⌊lo⌋ + 2 : ℤ) : ℚ) := by
    simp [expand_round, fceil, ftrunc, h0, h0']
    ring
  rw [hdiff]
  have htr : ftrunc ((⌈hi⌉ - ⌊lo⌋ + 2 : ℤ) : ℚ) = ((⌈hi⌉ - ⌊lo⌋ + 2 : ℤ) : ℚ) := by
    rw [ftrunc_of_nonneg (by exact_mod_cast by omega)]
    simp
  unfold f32AsU32
  rw [htr, Rat.num_intCast]
  omega

/-! ### Claims C2, C6, C7 — bitmap metrics -/

/-- Claim C2, counterexample: for the S1 scenario (glyph bounds
`(0, 0, 1024, 1024)`, `font.scaler = 1/2048`, `text_height = 32`, so
`s = 1/64`) the code computes `width = height = 19`, while the claim's
formula `ceil(max_x·s) − floor(min_x·s) + 1` yields `17`. -/
theorem C2_counterexample :
    (ImtGlyphBitmap.new ⟨1/2048, 1800, 0, 0⟩ ⟨7, 0, 0, 1024, 1024, []⟩ 32
        ImtRasterOpts.default).metrics.width = 19
    ∧ (ImtGlyphBitmap.new ⟨1/2048, 1800, 0, 0⟩ ⟨7, 0, 0, 1024, 1024, []⟩ 32
        ImtRasterOpts.default).metrics.height = 19
    ∧ (⌈(1024 : ℚ) * (1/2048 * 32)⌉ - ⌊(0 : ℚ) * (1/2048 * 32)⌋ + 1 = 17)
    ∧ (19 : ℕ) ≠ 17 := by
  have e1 : expand_round ((1024 : ℚ) * (1/2048 * 32)) true = 17 := by
    rw [expand_round, if_pos rfl, if_pos (by norm_num),
      fceil_eq (n := 16) (by norm_num) (by norm_num)]
    norm_num
  have e2 : expand_round ((0 : ℚ) * (1/2048 * 32)) false = -1 := by
    rw [expand_round, if_neg (by simp), if_pos (by norm_num),
      ftrunc_eq_nonneg (n := 0) (by norm_num) (by norm_num) (by norm_num)]
    norm_num
  have ed : ftrunc ((17 : ℚ) - -1) = ((18 : ℤ) : ℚ) := by
    rw [show (17 : ℚ) - -1 = 18 by norm_num]
    exact ftrunc_eq_nonneg (by norm_num) (by norm_num) (by norm_num)
  refine ⟨?_, ?_, ?_, by decide⟩
  · show (f32AsU32 (expand_round ((1024 : ℚ) * (1/2048 * 32)) true
        - expand_round ((0 : ℚ) * (1/2048 * 32)) false) + 1) % 2 ^ 32 = 19
    rw [e1, e2, f32AsU32_eq ed]
    decide
  · show (f32AsU32 (expand_round ((1024 : ℚ) * (1/2048 * 32)) true
        - expand_round ((0 : ℚ) * (1/2048 * 32)) false) + 1) % 2 ^ 32 = 19
    rw [e1, e2, f32AsU32_eq ed]
    decide
  · rw [show ((1024 : ℚ) * (1/2048 * 32)) = 16 by norm_num,
      show ((0 : ℚ) * (1/2048 * 32)) = 0 by norm_num]
    rw [show ((16 : ℚ)) = ((16 : ℤ) : ℚ) by norm_num, Int.ceil_intCast]
    norm_num

/-- Claim C2 (amended): `ImtGlyphBitmap::new` computes the extent by
the `expand_round` rule, which for nonnegative scaled bounds gives
`width = ceil(max_x·s) − floor(min_x·s) + 3` (and the analogous
height), not `… + 1`; in particular S1 yields `width = height = 19`. -/
theorem C2_amended (props : ImtFontProps) (parsed : ImtParsedGlyph) (h : ℚ)
    (opts : ImtRasterOpts)
    (hx0 : 0 ≤ parsed.min_x * (props.scaler * h))
    (hx : parsed.min_x * (props.scaler * h) ≤ parsed.max_x * (props.scaler * h))
    (hxb : ⌈parsed.max_x * (props.scaler * h)⌉ - ⌊parsed.min_x * (props.scaler * h)⌋ + 3 < 2 ^ 32)
    (hy0 : 0 ≤ parsed.min_y * (props.scaler * h))
    (hy : parsed.min_y * (props.scaler * h) ≤ parsed.max_y * (props.scaler * h))
    (hyb : ⌈parsed.max_y * (props.scaler * h)⌉ - ⌊parsed.min_y * (props.scaler * h)⌋ + 3 < 2 ^ 32) :
    (ImtGlyphBitmap.new props parsed h opts).metrics.width
      = (⌈parsed.max_x * (props.scaler * h)⌉ - ⌊parsed.min_x * (props.scaler * h)⌋ + 3).toNat
    ∧ (ImtGlyphBitmap.new props parsed h opts).metrics.height
      = (⌈parsed.max_y * (props.scaler * h)⌉ - ⌊parsed.min_y * (props.scaler * h)⌋ + 3).toNat :=
  ⟨widthFormula _ _ hx0 hx hxb, widthFormula _ _ hy0 hy hyb⟩

/-- Witness for `C2_amended`: the S1 scenario satisfies its
hypotheses and the formula evaluates to `width = height = 19`. -/
theorem C2_amended_witness :
    (ImtGlyphBitmap.new ⟨1/2048, 1800, 0, 0⟩ ⟨7, 0, 0, 1024, 1024, []⟩ 32
        ImtRasterOpts.default).metrics.width
      = (⌈(1024 : ℚ) * (1/2048 * 32)⌉ - ⌊(0 : ℚ) * (1/2048 * 32)⌋ + 3).toNat
    ∧ (ImtGlyphBitmap.new ⟨1/2048, 1800, 0, 0⟩ ⟨7, 0, 0, 1024, 1024, []⟩ 32
        ImtRasterOpts.default).metrics.height
      = (⌈(1024 : ℚ) * (1/2048 * 32)⌉ - ⌊(0 : ℚ) * (1/2048 * 32)⌋ + 3).toNat :=
  C2_amended ⟨1/2048, 1800, 0, 0⟩ ⟨7, 0, 0, 1024, 1024, []⟩ 32 ImtRasterOpts.default
    (by norm_num) (by norm_num)
    (by rw [show ((1024 : ℚ) * (1/2048 * 32)) = ((16 : ℤ) : ℚ) by norm_num,
          Int.ceil_intCast]
        norm_num)
    (by norm_num) (by norm_num)
    (by rw [show ((1024 : ℚ) * (1/2048 * 32)) = ((16 : ℤ) : ℚ) by norm_num,
          Int.ceil_intCast]
        norm_num)

/-- Claim C6, counterexample: with `align_whole_pixels` set and
`min_x·s = 1/2` (e.g. `min_x = 1`, `font.scaler = 1/2`, height `1`),
the code produces `bearing_x = ceil(1/2) = 1`, while the claim's
`floor(min_x·s)` is `0`. -/
theorem C6_counterexample :
    (ImtGlyphBitmap.new ⟨1/2, 0, 0, 0⟩ ⟨3, 1, 0, 2, 0, []⟩ 1
        ImtRasterOpts.default).metrics.bearing_x = 1
    ∧ ffloor ((1 : ℚ) * (1/2 * 1)) = 0
    ∧ (1 : ℚ) ≠ 0 := by
  refine ⟨?_, ?_, by norm_num⟩
  · show fceil ((1 : ℚ) * (1/2 * 1)) = 1
    rw [fceil_eq (n := 1) (by norm_num) (by norm_num)]
    norm_num
  · rw [ffloor_eq (n := 0) (by norm_num) (by norm_num)]
    norm_num

/-- Claim C6 (amended): with `align_whole_pixels` set,
`ImtGlyphBitmap::new` produces `bearing_x = ceil(min_x·s)` (not the
floor) and `bearing_y = ceil((ascender − max_y)·s)`; without the flag
the bearings are the raw products. -/
theorem C6_amended (props : ImtFontProps) (parsed : ImtParsedGlyph) (h : ℚ)
    (opts : ImtRasterOpts) :
    (ImtGlyphBitmap.new props parsed h opts).metrics.bearing_x
      = (if opts.align_whole_pixels
          then ((⌈parsed.min_x * (props.scaler * h)⌉ : ℤ) : ℚ)
          else parsed.min_x * (props.scaler * h))
    ∧ (ImtGlyphBitmap.new props parsed h opts).metrics.bearing_y
      = (if opts.align_whole_pixels
          then ((⌈(props.ascender - parsed.max_y) * (props.scaler * h)⌉ : ℤ) : ℚ)
          else (props.ascender - parsed.max_y) * (props.scaler * h)) :=
  ⟨rfl, rfl⟩

/-- Claim C7, counterexample: in the min direction at `v = −5/2` the
code computes `ceil(−5/2) − 1 = −3`, which is not `≤ v − 1 = −7/2`;
the guard band below a negative minimum can be under one pixel. -/
theorem C7_counterexample :
    expand_round (-5/2) false = -3 ∧ ¬ (expand_round (-5/2) false ≤ -5/2 - 1) := by
  have e : expand_round ((-5 : ℚ)/2) false = -3 := by
    rw [expand_round, if_neg (by simp), if_neg (by norm_num),
      fceil_eq (n := -2) (by norm_num) (by norm_num)]
    norm_num
  exact ⟨e, by rw [e]; norm_num⟩

/-- Claim C7 (amended): the max-direction boundary always lies at
least one pixel beyond `v`; the min-direction boundary lies at least
one pixel below `v` when `v ≥ 0`, but for negative fractional `v` it
only satisfies `v − 1 ≤ expand_round v false < v`. -/
theorem C7_amended (v : ℚ) :
    (v + 1 ≤ expand_round v true)
    ∧ (expand_round v false ≤ v - 1
        ∨ (v < 0 ∧ v - 1 ≤ expand_round v false ∧ expand_round v false < v)) := by
  constructor
  · rw [expand_round_true]
    have := Int.le_ceil v
    linarith
  · by_cases h : 0 ≤ v
    · left
      rw [expand_round_false_nonneg h]
      have := Int.floor_le v
      linarith
    · have hv : v < 0 := lt_of_not_le h
      right
      rw [expand_round_false_neg h]
      have h1 := Int.le_ceil v
      have h2 := Int.ceil_lt_add_one v
      exact ⟨hv, by linarith, by linarith⟩

/-! ### Claim C9 — intersection point -/

/-- Claim C9 (code bug): for the ray `(2,0) → (4,0)` against the
segment `(3,−1) → (3,1)` both parameters are `t = u = 1/2 ∈ [0,1]`,
and the point on the ray at parameter `t` is `p1 + r·t = (3, 0)` — the
shader returns it — but `raster_cpu` computes `(p1 + r)·t = (2, 0)`.
The CPU distance accumulation therefore uses a point that is not the
intersection. -/
theorem C9_cpu_intersection_point_bug :
    ray_intersects_cpu (2, 0) (4, 0) (3, -1) (3, 1) = some (2, 0)
    ∧ ray_intersects_gpu (2, 0) (4, 0) (3, -1) (3, 1) = some (3, 0)
    ∧ ((2 : ℚ) + (4 - 2) * (1/2), (0 : ℚ) + (0 - 0) * (1/2)) = ((3 : ℚ), (0 : ℚ))
    ∧ ((2 : ℚ), (0 : ℚ)) ≠ ((3 : ℚ), (0 : ℚ)) := by
  refine ⟨?_, ?_, by norm_num, by norm_num⟩
  · norm_num [ray_intersects_cpu]
  · norm_num [ray_intersects_gpu]

/-! ### Claim C10 — constructor-forced rasterization path -/

/-- Claim C10 (confirmed): whatever `cpu_rasterization` value the
caller passes, `new_cpu` forces the CPU path and `new_gpu` the GPU
path, and the stored options are independent of the caller's value of
that field. -/
theorem C10_cpu_rasterization_ignored (opts : ImtRasterOpts) (b : Bool) :
    rasterDispatch (ImtRaster.newCpuOpts { opts with cpu_rasterization := b }) = .cpu
    ∧ rasterDispatch (ImtRaster.newGpuOpts { opts with cpu_rasterization := b }) = .gpu
    ∧ ImtRaster.newCpuOpts { opts with cpu_rasterization := b }
        = ImtRaster.newCpuOpts opts
    ∧ ImtRaster.newGpuOpts { opts with cpu_rasterization := b }
        = ImtRaster.newGpuOpts opts :=
  ⟨rfl, rfl, rfl, rfl⟩

/-! ### Claim C8 — premultiplied-to-straight conversion -/

/-- Claim C8 (code bug): `raster_cpu` divides R, G, B by
`a = (r+g+b)/3` with no guard.  At a zero-coverage pixel
(`r = g = b = 0`, e.g. any pixel of the guard band) the stored R, G, B
are `0.0/0.0 = NaN` (`none` in the embedding), not the zero the claim
requires; alpha itself is `0`. -/
theorem C8_alpha_zero_division :
    cpuPixelFinish (fun _ => 0) = (none, none, none, 0)
    ∧ (none : Option ℝ) ≠ some 0 := by
  constructor
  · unfold cpuPixelFinish fdivR
    norm_num
  · simp

/-! ### Claim C1 — CPU/GPU per-pixel parity -/

lemma gain_at_full : gain (1 + 0.1) 2.5 = 1 := by
  unfold gain glslClamp glslSign
  simp only
  rw [max_eq_left (by norm_num : (0:ℝ) ≤ 1 + 0.1),
    min_eq_right (by norm_num : (1:ℝ) ≤ 1 + 0.1),
    if_pos (by norm_num : (0:ℝ) < 1 - 0.5)]
  rw [show (2 : ℝ) * ((1 + 1) / 2 - 1 * 1) = 0 by norm_num]
  rw [Real.zero_rpow (by norm_num)]
  norm_num

lemma gpuGetValue_covMid_zero {q : ℚ} (hq : q ≠ 3/6) :
    gpuGetValue covMid q = 0 := by
  unfold gpuGetValue covMid
  rw [if_neg hq, if_pos (by norm_num : (0:ℝ) < 0.02)]

lemma gpuGetValue_covMid_mid : gpuGetValue covMid (3/6) = 1 := by
  unfold gpuGetValue covMid
  rw [if_pos rfl, if_neg (by norm_num : ¬ ((1:ℝ) < 0.02))]
  exact gain_at_full

lemma cpuPixelFinish_covMid :
    cpuPixelFinish covMid = (some 0, some 3, some 0, 1/3) := by
  norm_num [cpuPixelFinish, covMid, fdivR]

lemma gpuPixelMain_covMid :
    gpuPixelMain covMid = (1/3, 1/3, 1/3, 1/3) := by
  unfold gpuPixelMain
  simp only
  rw [gpuGetValue_covMid_zero (by norm_num), gpuGetValue_covMid_zero (by norm_num),
    gpuGetValue_covMid_mid, gpuGetValue_covMid_zero (by norm_num),
    gpuGetValue_covMid_zero (by norm_num)]
  norm_num

lemma quant8_three : quant8 3 = 255 := by
  unfold quant8 glslClamp
  rw [max_eq_left (by norm_num : (0:ℝ) ≤ 3), min_eq_right (by norm_num : (1:ℝ) ≤ 3)]
  rw [Int.floor_eq_iff]
  norm_num

lemma quant8_third : quant8 (1/3) = 85 := by
  unfold quant8 glslClamp
  rw [max_eq_left (by norm_num : (0:ℝ) ≤ 1/3),
    min_eq_left (by norm_num : (1/3 : ℝ) ≤ 1)]
  rw [Int.floor_eq_iff]
  norm_num

/-- Claim C1, counterexample: with full coverage at the middle
subpixel and none elsewhere, the CPU pixel stores `G = 3` (coverage 1
divided by alpha 1/3) while the shader stores `G = 1/3`; their 8-bit
quantizations are 255 and 85, which differ by 170 ULPs, far beyond
one. -/
theorem C1_counterexample :
    (cpuPixelFinish covMid).2.1 = some 3
    ∧ (gpuPixelMain covMid).2.1 = 1/3
    ∧ quant8 3 - quant8 (1/3) = 170
    ∧ ¬ ((quant8 3 - quant8 (1/3)).natAbs ≤ 1) := by
  refine ⟨?_, ?_, ?_, ?_⟩
  · rw [cpuPixelFinish_covMid]
  · rw [gpuPixelMain_covMid]
  · rw [quant8_three, quant8_third]
    norm_num
  · rw [quant8_three, quant8_third]
    decide

/-- Claim C1 (amended): the CPU and GPU rasterizers share the sample
grid and ray-voting core in structure, but do not execute the same
per-pixel algorithm: their `ray_intersects` functions return different
points for the same hit, and on the same coverage oracle the CPU
3-tap mean-alpha divide-by-alpha finish and the shader's 5-tap
threshold/gain/box-filter max-alpha finish store different pixels, so
the bitmaps are not guaranteed to agree within one 8-bit ULP. -/
theorem C1_amended :
    ray_intersects_cpu (2, 0) (4, 0) (3, -1) (3, 1)
        ≠ ray_intersects_gpu (2, 0) (4, 0) (3, -1) (3, 1)
    ∧ cpuPixelFinish covMid = (some 0, some 3, some 0, 1/3)
    ∧ gpuPixelMain covMid = (1/3, 1/3, 1/3, 1/3)
    ∧ (some (3 : ℝ) ≠ some (1/3 : ℝ)) := by
  refine ⟨?_, cpuPixelFinish_covMid, gpuPixelMain_covMid, by norm_num⟩
  rw [show ray_intersects_cpu (2, 0) (4, 0) (3, -1) (3, 1) = some (2, 0) by
      norm_num [ray_intersects_cpu],
    show ray_intersects_gpu (2, 0) (4, 0) (3, -1) (3, 1) = some (3, 0) by
      norm_num [ray_intersects_gpu]]
  norm_num

/-! ### Claim C5 — batch loop theorems -/

lemma rasterStep_fst {G K B E : Type} [DecidableEq K] {keyOf : G → K}
    {doRaster : G → Except E B} {cache : List (K × CacheVal B E)} {g : G}
    {p : (G × B) × List (K × CacheVal B E)}
    (h : rasterStep keyOf doRaster cache g = .ok p) : p.1.1 = g := by
  unfold rasterStep at h
  split at h
  · cases h
    rfl
  · split at h
    · cases h
    · cases h
      rfl

/-- Claim C5 (confirmed): a `raster_shaped_glyphs` call either
returns `Ok` with one output per input glyph, in input order, each
record carrying its shaped glyph in the first component — or returns
the first error: the glyph list splits as `gs1 ++ g :: gs2` where the
whole of `gs1` was processed successfully and processing `g` produced
exactly the returned error.  No incomplete output list escapes. -/
theorem C5_batch_contract {G K B E : Type} [DecidableEq K] (keyOf : G → K)
    (doRaster : G → Except E B) (gs : List G)
    (cache : List (K × CacheVal B E)) :
    (∀ l c', raster_shaped_glyphs keyOf doRaster gs cache = .ok (l, c') →
      l.map Prod.fst = gs)
    ∧ (∀ e, raster_shaped_glyphs keyOf doRaster gs cache = .error e →
      ∃ (gs1 : List G) (g : G) (gs2 : List G) (l : List (G × B))
        (c' : List (K × CacheVal B E)), gs = gs1 ++ g :: gs2
        ∧ raster_shaped_glyphs keyOf doRaster gs1 cache = .ok (l, c')
        ∧ l.map Prod.fst = gs1
        ∧ rasterStep keyOf doRaster c' g = .error e) := by
  induction gs generalizing cache with
  | nil =>
    refine ⟨?_, ?_⟩
    · intro l c' h
      simp only [raster_shaped_glyphs] at h
      cases h
      rfl
    · intro e h
      simp [raster_shaped_glyphs] at h
  | cons g gs ih =>
    refine ⟨?_, ?_⟩
    · intro l c' h
      simp only [raster_shaped_glyphs] at h
      split at h
      · cases h
      · rename_i p out cache1 heq
        split at h
        · cases h
        · rename_i q outs cache2 heq2
          rw [Except.ok.injEq, Prod.mk.injEq] at h
          obtain ⟨hl, hc⟩ := h
          have h1 := (ih cache1).1 outs cache2 heq2
          have h2 : out.1 = g := rasterStep_fst heq
          rw [← hl]
          simp [h1, h2]
    · intro e h
      simp only [raster_shaped_glyphs] at h
      split at h
      · rename_i e1 heq
        cases h
        exact ⟨[], g, gs, [], cache, rfl, rfl, rfl, heq⟩
      · rename_i p out cache1 heq
        split at h
        · rename_i e1 heq2
          cases h
          obtain ⟨gs1, g1, gs2, l, c', hsplit, hok, hmap, herr⟩ :=
            (ih cache1).2 e heq2
          refine ⟨g :: gs1, g1, gs2, out :: l, c', by simp [hsplit], ?_, ?_, herr⟩
          · simp only [raster_shaped_glyphs, heq, hok]
          · have h2 : out.1 = g := rasterStep_fst heq
            simp [h2, hmap]
        · cases h

/-- Witness for `C5_batch_contract`: with keys the glyphs themselves
and `doRaster` failing only on glyph `1`, the batch `[0, 2, 3]`
succeeds with outputs paired in order, and the batch `[0, 1, 2]`
fails with error `7` after the successful one-element front `[0]`. -/
theorem C5_batch_contract_witness :
    ([((0 : ℕ), (10 : ℕ)), (2, 12), (3, 13)].map Prod.fst = [0, 2, 3])
    ∧ (∃ (gs1 : List ℕ) (g : ℕ) (gs2 : List ℕ) (l : List (ℕ × ℕ))
        (c' : List (ℕ × CacheVal ℕ ℕ)),
        ([0, 1, 2] : List ℕ) = gs1 ++ g :: gs2
        ∧ raster_shaped_glyphs id
            (fun g => if g = 1 then .error 7 else .ok (g + 10)) gs1 [] = .ok (l, c')
        ∧ l.map Prod.fst = gs1
        ∧ rasterStep id (fun g => if g = 1 then .error 7 else .ok (g + 10)) c' g
            = .error 7) :=
  ⟨(C5_batch_contract id (fun g => if g = 1 then .error 7 else .ok (g + 10))
      [0, 2, 3] []).1 [(0, 10), (2, 12), (3, 13)]
      [(3, .completed 13), (2, .completed 12), (0, .completed 10)]
      (by simp [raster_shaped_glyphs, rasterStep, cacheFind, cacheInsert]),
   (C5_batch_contract id (fun g => if g = 1 then .error 7 else .ok (g + 10))
      [0, 1, 2] []).2 7
      (by simp [raster_shaped_glyphs, rasterStep, cacheFind, cacheInsert])⟩

/-! ### Claim C4 — purity and the cache key -/

lemma width_eval {lo hi : ℚ} {a b : ℤ} (hlo : lo = (a : ℚ)) (hhi : hi = (b : ℚ))
    (h0 : 0 ≤ a) (hab : a ≤ b) (hb : b - a + 3 < 2 ^ 32) :
    (f32AsU32 (expand_round hi true - expand_round lo false) + 1) % 2 ^ 32
      = (b - a + 3).toNat := by
  subst hlo
  subst hhi
  rw [widthFormula _ _ (by exact_mod_cast h0) (by exact_mod_cast hab)
    (by rwa [Int.ceil_intCast, Int.floor_intCast])]
  rw [Int.ceil_intCast, Int.floor_intCast]

/-- Claim C4, counterexample: two invocations that agree on the cache
key `(text_height, glyph_index) = (1, 5)` and on the raster options,
but go through parsers whose fonts have `scaler = 1/64` versus
`scaler = 1/32`, produce bitmaps of width 4 versus 5.  The bitmap is
not a function of `(glyph_id, text_height, raster options)` alone. -/
theorem C4_counterexample :
    rasterCacheKey 1 ⟨5, 0, 0, 64, 64, []⟩ = rasterCacheKey 1 ⟨5, 0, 0, 64, 64, []⟩
    ∧ (ImtGlyphBitmap.new ⟨1/64, 0, 0, 0⟩ ⟨5, 0, 0, 64, 64, []⟩ 1
        ImtRasterOpts.default).metrics.width = 4
    ∧ (ImtGlyphBitmap.new ⟨1/32, 0, 0, 0⟩ ⟨5, 0, 0, 64, 64, []⟩ 1
        ImtRasterOpts.default).metrics.width = 5
    ∧ (4 : ℕ) ≠ 5 := by
  refine ⟨rfl, ?_, ?_, by norm_num⟩
  · show (f32AsU32 (expand_round ((64 : ℚ) * (1/64 * 1)) true
        - expand_round ((0 : ℚ) * (1/64 * 1)) false) + 1) % 2 ^ 32 = 4
    rw [width_eval (a := 0) (b := 1) (by norm_num) (by norm_num)
      (by norm_num) (by norm_num) (by norm_num)]
    decide
  · show (f32AsU32 (expand_round ((64 : ℚ) * (1/32 * 1)) true
        - expand_round ((0 : ℚ) * (1/32 * 1)) false) + 1) % 2 ^ 32 = 5
    rw [width_eval (a := 0) (b := 2) (by norm_num) (by norm_num)
      (by norm_num) (by norm_num) (by norm_num)]
    decide

/-- Claim C4 (amended): the bitmap record is a pure function of the
parsed glyph's bounds and outline geometry, the font's scaler and
ascender, the text height and the raster options — it does not read
the glyph index, which together with the text height is all the cache
key records.  Memoizing under `(glyph_index, text_height)` is
therefore sound only while an `ImtRaster` is used with a single
parser/font, as `ImtFont` does. -/
theorem C4_amended (props : ImtFontProps) (pg pg2 : ImtParsedGlyph) (h : ℚ)
    (opts : ImtRasterOpts)
    (hminx : pg.min_x = pg2.min_x) (hminy : pg.min_y = pg2.min_y)
    (hmaxx : pg.max_x = pg2.max_x) (hmaxy : pg.max_y = pg2.max_y)
    (hgeo : pg.geometry = pg2.geometry) :
    ImtGlyphBitmap.new props pg h opts = ImtGlyphBitmap.new props pg2 h opts
    ∧ create_outline pg (props.scaler * h) = create_outline pg2 (props.scaler * h) := by
  cases pg
  cases pg2
  simp only at hminx hminy hmaxx hmaxy hgeo
  subst hminx
  subst hminy
  subst hmaxx
  subst hmaxy
  subst hgeo
  exact ⟨rfl, rfl⟩

/-- Witness for `C4_amended`: two glyphs differing only in their
glyph index (7 versus 8) produce identical bitmap setups and
outlines. -/
theorem C4_amended_witness :
    ImtGlyphBitmap.new ⟨1, 0, 0, 0⟩ ⟨7, 0, 0, 1, 1, []⟩ 1 ImtRasterOpts.default
      = ImtGlyphBitmap.new ⟨1, 0, 0, 0⟩ ⟨8, 0, 0, 1, 1, []⟩ 1 ImtRasterOpts.default
    ∧ create_outline ⟨7, 0, 0, 1, 1, []⟩ (1 * 1)
      = create_outline ⟨8, 0, 0, 1, 1, []⟩ (1 * 1) :=
  C4_amended ⟨1, 0, 0, 0⟩ ⟨7, 0, 0, 1, 1, []⟩ ⟨8, 0, 0, 1, 1, []⟩ 1
    ImtRasterOpts.default rfl rfl rfl rfl rfl

/-! ### Claim C3 — at-most-once concurrent rasterization -/

lemma cacheInv_init (T : Type) [DecidableEq T] : CacheInv (CacheWorld.init T) := by
  refine ⟨fun _ => ⟨rfl, fun t => rfl⟩, ?_, ?_⟩
  · intro ws hws
    simp [CacheWorld.init] at hws
  · intro h hc
    simp [CacheWorld.init] at hc

lemma cacheInv_step {T : Type} [DecidableEq T] {c c2 : CacheWorld T}
    (hinv : CacheInv c) (hs : CacheStep c c2) : CacheInv c2 := by
  obtain ⟨hnone, hinc, hcomp⟩ := hinv
  cases hs with
  | beginBuild t ht hc =>
    obtain ⟨hb0, hall⟩ := hnone hc
    dsimp only [CacheInv]
    refine ⟨(fun hx => nomatch hx), ?_, ?_⟩
    · intro ws hws
      refine ⟨by omega, ⟨t, ?_, ?_⟩, ?_⟩
      · simp [Function.update_same]
      · intro t2 ht2
        by_contra hne
        rw [Function.update_noteq hne, hall t2] at ht2
        cases ht2
      · intro t3 h hd
        by_cases hte : t3 = t
        · subst hte
          rw [Function.update_same] at hd
          cases hd
        · rw [Function.update_noteq hte, hall t3] at hd
          cases hd
    · intro h hcc
      simp at hcc
  | hitCompleted t h ht hc =>
    obtain ⟨hb1, hnb, hdh⟩ := hcomp h hc
    dsimp only [CacheInv]
    rw [hc]
    refine ⟨(fun hx => nomatch hx), ?_, ?_⟩
    · intro ws hws
      simp at hws
    · intro h2 hcc
      simp only [Option.some.injEq, CacheEntry.completed.injEq] at hcc
      subst hcc
      refine ⟨hb1, ?_, ?_⟩
      · intro t2
        by_cases hte : t2 = t
        · subst hte
          rw [Function.update_same]
          intro hx
          cases hx
        · rw [Function.update_noteq hte]
          exact hnb t2
      · intro t2 h3 hd
        by_cases hte : t2 = t
        · subst hte
          rw [Function.update_same] at hd
          cases hd
          rfl
        · rw [Function.update_noteq hte] at hd
          exact hdh t2 h3 hd
  | registerWaiter t ws ht hc =>
    obtain ⟨hb1, ⟨tb, htb, huniq⟩, hnd⟩ := hinc ws hc
    dsimp only [CacheInv]
    refine ⟨(fun hx => nomatch hx), ?_, ?_⟩
    · intro ws2 hws2
      have htbt : tb ≠ t := by
        intro hx
        subst hx
        rw [ht] at htb
        cases htb
      refine ⟨hb1, ⟨tb, ?_, ?_⟩, ?_⟩
      · rw [Function.update_noteq htbt]
        exact htb
      · intro t2 ht2
        by_cases hte : t2 = t
        · subst hte
          rw [Function.update_same] at ht2
          cases ht2
        · rw [Function.update_noteq hte] at ht2
          exact huniq t2 ht2
      · intro t3 h hd
        by_cases hte : t3 = t
        · subst hte
          rw [Function.update_same] at hd
          cases hd
        · rw [Function.update_noteq hte] at hd
          exact hnd t3 h hd
    · intro h hcc
      simp at hcc
  | publish t h ht =>
    have hcases : ∃ ws, c.cache = some (.incomplete ws) := by
      rcases hcx : c.cache with _ | entry
      · obtain ⟨hb0, hall⟩ := hnone hcx
        rw [hall t] at ht
        cases ht
      · rcases entry with ws | h2
        · exact ⟨ws, rfl⟩
        · obtain ⟨hb1, hnb, hdh⟩ := hcomp h2 hcx
          exact absurd ht (hnb t)
    obtain ⟨ws, hc⟩ := hcases
    obtain ⟨hb1, ⟨tb, htb, huniq⟩, hnd⟩ := hinc ws hc
    have htbt : tb = t := (huniq t ht).symm
    subst htbt
    dsimp only [CacheInv]
    refine ⟨(fun hx => nomatch hx), ?_, ?_⟩
    · intro ws2 hws2
      simp at hws2
    · intro h2 hcc
      simp only [Option.some.injEq, CacheEntry.completed.injEq] at hcc
      subst hcc
      refine ⟨hb1, ?_, ?_⟩
      · intro t2
        by_cases hte : t2 = tb
        · subst hte
          rw [Function.update_same]
          intro hx
          cases hx
        · rw [Function.update_noteq hte]
          intro hx
          exact hte (huniq t2 hx)
      · intro t2 h3 hd
        by_cases hte : t2 = tb
        · subst hte
          rw [Function.update_same] at hd
          cases hd
          rfl
        · rw [Function.update_noteq hte] at hd
          exact absurd hd (hnd t2 h3)
  | wake t h ht hc =>
    obtain ⟨hb1, hnb, hdh⟩ := hcomp h hc
    dsimp only [CacheInv]
    rw [hc]
    refine ⟨(fun hx => nomatch hx), ?_, ?_⟩
    · intro ws hws
      simp at hws
    · intro h2 hcc
      simp only [Option.some.injEq, CacheEntry.completed.injEq] at hcc
      subst hcc
      refine ⟨hb1, ?_, ?_⟩
      · intro t2
        by_cases hte : t2 = t
        · subst hte
          rw [Function.update_same]
          intro hx
          cases hx
        · rw [Function.update_noteq hte]
          exact hnb t2
      · intro t2 h3 hd
        by_cases hte : t2 = t
        · subst hte
          rw [Function.update_same] at hd
          cases hd
          rfl
        · rw [Function.update_noteq hte] at hd
          exact hdh t2 h3 hd

lemma cacheInv_reachable {T : Type} [DecidableEq T] {c : CacheWorld T}
    (hr : cacheReachable T c) : CacheInv c := by
  unfold cacheReachable at hr
  induction hr with
  | refl => exact cacheInv_init T
  | tail hab hbc ih => exact cacheInv_step ih hbc

/-- Claim C3 (confirmed, for error-free executions): in every state
reachable from a cold cache, rasterization work for the key has
started at most once; once any thread holds a bitmap the work has run
exactly once; and any two threads that finished hold the same
published handle.  Parked threads can only proceed once the entry is
published (`wake` requires a `Completed` cache entry). -/
theorem C3_at_most_once {T : Type} [DecidableEq T] (c : CacheWorld T)
    (hr : cacheReachable T c) :
    c.builds ≤ 1
    ∧ (∀ t h, c.threads t = .done h → c.builds = 1)
    ∧ (∀ t t2 h h2, c.threads t = .done h → c.threads t2 = .done h2 → h = h2) := by
  obtain ⟨hnone, hinc, hcomp⟩ := cacheInv_reachable hr
  have hdone_comp : ∀ t h, c.threads t = .done h →
      ∃ H, c.cache = some (.completed H) ∧ h = H := by
    intro t h hd
    rcases hc : c.cache with _ | entry
    · rw [(hnone hc).2 t] at hd
      cases hd
    · rcases entry with ws | H
      · exact absurd hd ((hinc ws hc).2.2 t h)
      · exact ⟨H, rfl, (hcomp H hc).2.2 t h hd⟩
  refine ⟨?_, ?_, ?_⟩
  · rcases hc : c.cache with _ | entry
    · rw [(hnone hc).1]
      omega
    · rcases entry with ws | H
      · exact le_of_eq (hinc ws hc).1
      · exact le_of_eq (hcomp H hc).1
  · intro t h hd
    obtain ⟨H, hcc, hHeq⟩ := hdone_comp t h hd
    exact (hcomp H hcc).1
  · intro t t2 h h2 hd hd2
    obtain ⟨H, hcc, hHeq⟩ := hdone_comp t h hd
    obtain ⟨H2, hcc2, hHeq2⟩ := hdone_comp t2 h2 hd2
    rw [hcc] at hcc2
    simp only [Option.some.injEq, CacheEntry.completed.injEq] at hcc2
    rw [hHeq, hHeq2]
    exact hcc2

/-- Witness for `C3_at_most_once`: the two-thread demonstration run
(build, park, publish handle 5, wake) reaches `cacheDemo4`, where the
work ran exactly once and both threads hold handle 5. -/
theorem C3_at_most_once_witness :
    cacheDemo4.builds ≤ 1 ∧ cacheDemo4.builds = 1 ∧ (5 : ℕ) = 5 := by
  have s1 : CacheStep cacheDemo0 cacheDemo1 :=
    CacheStep.beginBuild cacheDemo0 0 rfl rfl
  have s2 : CacheStep cacheDemo1 cacheDemo2 :=
    CacheStep.registerWaiter cacheDemo1 1 [] rfl rfl
  have s3 : CacheStep cacheDemo2 cacheDemo3 :=
    CacheStep.publish cacheDemo2 0 5 rfl
  have s4 : CacheStep cacheDemo3 cacheDemo4 :=
    CacheStep.wake cacheDemo3 1 5 rfl rfl
  have hr : cacheReachable ℕ cacheDemo4 :=
    Relation.ReflTransGen.tail
      (Relation.ReflTransGen.tail
        (Relation.ReflTransGen.tail
          (Relation.ReflTransGen.tail Relation.ReflTransGen.refl s1) s2) s3) s4
  have main := C3_at_most_once cacheDemo4 hr
  exact ⟨main.1, main.2.1 1 5 rfl, main.2.2 0 1 5 5 rfl rfl⟩

end Ilmenite
